import Mathlib

/-!
Shallow embedding of `scripts/empty-repos-scanner.js` (class `EmptyReposScanner`).
The external GitHub API is modelled by explicit parameters: the repository
listing is a `List Repo`, the per-repository root-content fetch is a function
`String → Except JsError ContentData`, and the current date is a `today`
string parameter (the source reads it once via `new Date().toISOString().slice(0,10)`).
Issue creation is modelled by returning the created issue value.
-/

namespace EmptyRepos

/-- A root-content entry as returned by `repos.getContent`: the scanner reads
`file.name`; `type` (`"file"` / `"dir"`) is carried by the API data model. -/
structure Entry where
  name : String
  type : String
deriving Repr, DecidableEq

/-- A repository descriptor from `repos.listForOrg`: the scanner reads
`full_name`, `name`, `private` and `archived`. -/
structure Repo where
  full_name : String
  name : String
  «private» : Bool
  archived : Bool
deriving Repr, DecidableEq

/-- A thrown JavaScript error as the scanner observes it: `e.status` plus an
opaque payload, so "re-raised unchanged" is equality of the whole value. -/
structure JsError where
  status : Nat
  message : String
deriving Repr, DecidableEq

/-- The `res.data` of a successful `getContent` call: either an array of
entries or a single entry object (`Array.isArray(res.data)` distinguishes). -/
inductive ContentData where
  | list (entries : List Entry)
  | single (entry : Entry)
deriving Repr, DecidableEq

/-- ASCII lowercase letter test, the character class `[a-z]` of the regex. -/
def isAsciiLowerAlpha (c : Char) : Bool :=
  'a' ≤ c && c ≤ 'z'

/-- The anchored case-insensitive regex `/^README(\.[a-z]+)?$/i` of line 75:
after ASCII case-folding, the name is `readme` optionally followed by a dot
and one or more ASCII letters. -/
def matchesReadme (s : String) : Bool :=
  match s.toList.map Char.toLower with
  | 'r' :: 'e' :: 'a' :: 'd' :: 'm' :: 'e' :: rest =>
    match rest with
    | [] => true
    | '.' :: ext => !ext.isEmpty && ext.all isAsciiLowerAlpha
    | _ => false
  | _ => false

/-- Lines 70-82 of `analyzeRepository`: empty listing → `"empty"`; otherwise
filter out README-pattern names and return `"readme-only"` when nothing is
left, else `"populated"`. -/
def classifyContents (contents : List Entry) : String :=
  if contents.length = 0 then "empty"
  else
    let nonReadmes := contents.filter fun file => !matchesReadme file.name
    if nonReadmes.length = 0 then "readme-only" else "populated"

/-- `analyzeRepository` (lines 53-83), with the `getContent` outcome passed in:
on success wrap a non-array `res.data` into a one-element array; on a thrown
error treat status 409 as an empty listing and re-raise anything else. -/
def analyzeRepository (res : Except JsError ContentData) : Except JsError String :=
  match res with
  | .ok d =>
      .ok (classifyContents (match d with
        | .list entries => entries
        | .single entry => [entry]))
  | .error e => if e.status = 409 then .ok (classifyContents []) else .error e

/-- The three `continue` conditions of the scan loop (lines 29-33): visibility
mismatch or archived. -/
def skipRepo (visibility : String) (r : Repo) : Bool :=
  (visibility == "public" && r.«private») ||
  (visibility == "private" && !r.«private») ||
  r.archived

/-- The repositories the loop actually analyzes: the listing minus the skipped
ones, in listing order. -/
def scannedRepos (visibility : String) (repos : List Repo) : List Repo :=
  repos.filter fun r => !skipRepo visibility r

/-- `scanRepositories` (lines 18-45) over an already-paginated listing: walk
the repos in order, skip by visibility and archived flag, analyze each
survivor once, and collect `full_name`s into the `empty` and `readmeOnly`
arrays; a non-409 fetch error aborts the whole scan. -/
def scanRepositories (visibility : String) (fetch : String → Except JsError ContentData) :
    List Repo → Except JsError (List String × List String)
  | [] => .ok ([], [])
  | r :: rest =>
    if skipRepo visibility r then scanRepositories visibility fetch rest
    else
      match analyzeRepository (fetch r.name) with
      | .error e => .error e
      | .ok repoStatus =>
        match scanRepositories visibility fetch rest with
        | .error e => .error e
        | .ok (es, rs) =>
          if repoStatus == "empty" then .ok (r.full_name :: es, rs)
          else if repoStatus == "readme-only" then .ok (es, r.full_name :: rs)
          else .ok (es, rs)

/-- `generateReportBody` (lines 93-108): header, visibility line, table header,
one row per empty repo then one per README-only repo, trailing note. -/
def generateReportBody (today org visibility : String)
    (empty readmeOnly : List String) : String :=
  let body := "# Empty Repo Report for `" ++ org ++ "` (" ++ today ++ ")\n\n"
  let body := body ++ "**Visibility:** " ++ visibility ++ "\n\n"
  let body := body ++ "| Repository | Status |\n| --- | --- |\n"
  let body := empty.foldl (fun b repo => b ++ "| " ++ repo ++ " | empty |\n") body
  let body := readmeOnly.foldl (fun b repo => b ++ "| " ++ repo ++ " | README-only |\n") body
  body ++ "\n_Automatically generated on the 1st of each month._"

/-- The issue value passed to `github.rest.issues.create`. -/
structure Issue where
  owner : String
  repo : String
  title : String
  body : String
deriving Repr, DecidableEq

/-- The `context.repo` pair naming the tracker repository. -/
structure Context where
  owner : String
  repo : String
deriving Repr, DecidableEq

/-- `createReportIssue` (lines 118-128): build the report body and the issue
titled `Monthly Repo Health: org (today)`. -/
def createReportIssue (ctx : Context) (today org visibility : String)
    (empty readmeOnly : List String) : Issue :=
  { owner := ctx.owner
    repo := ctx.repo
    title := "Monthly Repo Health: " ++ org ++ " (" ++ today ++ ")"
    body := generateReportBody today org visibility empty readmeOnly }

/-- The value `run` resolves with, plus the list of issues created during the
call (the source creates at most one, via `createReportIssue`). -/
structure RunResult where
  issues : List Issue
  issueCreated : Bool
  empty : List String
  readmeOnly : List String
deriving Repr, DecidableEq

/-- `run` (lines 136-152): scan, and if nothing qualified return with
`issueCreated: false` and no issue; otherwise create the report issue once
and return `issueCreated: true`. A scan error propagates (the `await` on
`scanRepositories` rejects before any issue is created). -/
def run (ctx : Context) (today org visibility : String)
    (fetch : String → Except JsError ContentData) (repos : List Repo) :
    Except JsError RunResult :=
  match scanRepositories visibility fetch repos with
  | .error e => .error e
  | .ok (empty, readmeOnly) =>
    if empty.length + readmeOnly.length = 0 then
      .ok { issues := [], issueCreated := false, empty, readmeOnly }
    else
      .ok { issues := [createReportIssue ctx today org visibility empty readmeOnly]
            issueCreated := true, empty, readmeOnly }

/-- Boolean list-prefix test, used to define substring occurrence. -/
def leadsWith : List Char → List Char → Bool
  | [], _ => true
  | _ :: _, [] => false
  | a :: as, b :: bs => a == b && leadsWith as bs

/-- Boolean substring-occurrence test on character lists. -/
def occursIn (needle : List Char) : List Char → Bool
  | [] => needle.isEmpty
  | c :: rest => leadsWith needle (c :: rest) || occursIn needle rest

/-- String `s` contains `sub` as a contiguous substring. -/
def containsStr (s sub : String) : Bool :=
  occursIn sub.toList s.toList

/-- The classification rule as §4.2/§8 of the spec word it: empty listing →
`empty`; every entry matching the README pattern → `readme-only`; otherwise
`populated`. Spec-side definition, to be compared with `classifyContents`. -/
def classifySpec (contents : List Entry) : String :=
  if contents.isEmpty then "empty"
  else if contents.all (fun en => matchesReadme en.name) then "readme-only"
  else "populated"

/-- One table row per repository, as §4.3 of the spec words it. -/
def reportRowsSpec (status : String) : List String → String
  | [] => ""
  | r :: rest => "| " ++ r ++ " | " ++ status ++ " |\n" ++ reportRowsSpec status rest

/-- The report layout as §4.3 of the spec words it: heading, visibility line,
table header, all empty rows then all README-only rows, trailing note.
Spec-side definition, to be compared with `generateReportBody`. -/
def reportSpec (today org visibility : String)
    (empty readmeOnly : List String) : String :=
  "# Empty Repo Report for `" ++ org ++ "` (" ++ today ++ ")\n\n" ++
  ("**Visibility:** " ++ visibility ++ "\n\n") ++
  "| Repository | Status |\n| --- | --- |\n" ++
  reportRowsSpec "empty" empty ++
  reportRowsSpec "README-only" readmeOnly ++
  "\n_Automatically generated on the 1st of each month._"

/-- Test fixture: a public, non-archived repository `A`. -/
def repoA : Repo :=
  { full_name := "org/A", name := "A", «private» := false, archived := false }

/-- Test fixture: a private, non-archived repository `B`. -/
def repoB : Repo :=
  { full_name := "org/B", name := "B", «private» := true, archived := false }

/-- Test fixture: a public repository `C` marked archived. -/
def repoC : Repo :=
  { full_name := "org/C", name := "C", «private» := false, archived := true }

/-- Test fixture: every content fetch fails with the 409 "no content"
condition (the mock API's behaviour for a repository with no contents). -/
def fetchEmpty : String → Except JsError ContentData :=
  fun _ => .error { status := 409, message := "Not Found" }

/-- Test fixture: every content fetch fails with a non-409 server error. -/
def fetchBoom : String → Except JsError ContentData :=
  fun _ => .error { status := 500, message := "boom" }

/-- Test fixture: the `context.repo` pair of the test harness. -/
def mockContext : Context :=
  { owner := "test-org", repo := "test-repo" }

/-- The implementation's classification (filter-and-count) agrees with the
spec's all-entries-match formulation, for every listing. -/
theorem classifyContents_eq_classifySpec (l : List Entry) :
    classifyContents l = classifySpec l := by
  rcases l with _ | ⟨a, t⟩
  · rfl
  · simp only [classifyContents, classifySpec, List.length_eq_zero, List.filter_eq_nil_iff,
      List.isEmpty_cons, List.all_eq_true, Bool.not_eq_true', List.length_cons,
      Nat.succ_ne_zero, if_false, Bool.false_eq_true]
    split <;> split <;> simp_all

/-- Claim C2 (confirmed): `classify` is the three-way rule over the listing —
empty → `empty`, all entries README-named → `readme-only`, otherwise
`populated` — and the anchored case-insensitive README pattern accepts
`README`, `README.md`, `README.txt`, `readme.md`, `ReadMe.rst` and rejects
`NOTREADME.md` and `README-old.md`. -/
theorem classify_three_way_rule :
    (∀ l : List Entry, analyzeRepository (.ok (.list l)) = .ok (classifySpec l)) ∧
    matchesReadme "README" = true ∧ matchesReadme "README.md" = true ∧
    matchesReadme "README.txt" = true ∧ matchesReadme "readme.md" = true ∧
    matchesReadme "ReadMe.rst" = true ∧ matchesReadme "NOTREADME.md" = false ∧
    matchesReadme "README-old.md" = false := by
  refine ⟨fun l => ?_, by decide, by decide, by decide, by decide, by decide, by decide,
    by decide⟩
  simp [analyzeRepository, classifyContents_eq_classifySpec]

/-- Claim C1, counterexample: a root listing holding a single directory named
`README` is classified `readme-only`, not `populated` — the filter on line 74
tests only `file.name`, never the entry type. -/
theorem readme_directory_counterexample :
    analyzeRepository (.ok (.list [{ name := "README", type := "dir" }])) = .ok "readme-only" ∧
    analyzeRepository (.ok (.list [{ name := "README", type := "dir" }])) ≠ .ok "populated" :=
  ⟨rfl, fun h => absurd (Except.ok.inj h) (by decide)⟩

/-- Claim C1 (amended): classification ignores the entry kind entirely — it is
invariant under retyping every entry as a file — so a directory counts as a
non-README entry exactly when its name fails the README pattern; any listing
with at least one non-README-named entry (e.g. a `src` directory next to a
README) is `populated`. -/
theorem classify_ignores_entry_kind :
    (∀ l : List Entry,
      analyzeRepository (.ok (.list l)) =
        analyzeRepository (.ok (.list (l.map fun en => { name := en.name, type := "file" })))) ∧
    (∀ l : List Entry, (∃ en ∈ l, matchesReadme en.name = false) →
      analyzeRepository (.ok (.list l)) = .ok "populated") ∧
    analyzeRepository (.ok (.list [{ name := "README.md", type := "file" },
      { name := "src", type := "dir" }])) = .ok "populated" := by
  refine ⟨fun l => ?_, fun l h => ?_, rfl⟩
  · simp [analyzeRepository, classifyContents_eq_classifySpec, classifySpec,
      List.all_map, Function.comp]
  · obtain ⟨en, hmem, hf⟩ := h
    have h1 : l.isEmpty = false := by
      cases l
      · cases hmem
      · rfl
    have h2 : (l.all fun e => matchesReadme e.name) = false :=
      List.all_eq_false.mpr ⟨en, hmem, by simp [hf]⟩
    simp [analyzeRepository, classifyContents_eq_classifySpec, classifySpec, h1, h2]

/-- Witness for the amended C1 theorem at a concrete non-README-named entry. -/
theorem classify_ignores_entry_kind_witness :
    analyzeRepository (.ok (.list [{ name := "src", type := "dir" }])) = .ok "populated" :=
  classify_ignores_entry_kind.2.1 [{ name := "src", type := "dir" }]
    ⟨{ name := "src", type := "dir" }, by decide, by decide⟩

/-- Claim C10 (confirmed): a successful fetch of a single non-array value is
wrapped into a one-element listing, so the result is `readme-only` when that
value's name matches the README pattern and `populated` otherwise — never
`empty`. -/
theorem classify_single_value (en : Entry) :
    analyzeRepository (.ok (.single en)) =
      .ok (if matchesReadme en.name then "readme-only" else "populated") ∧
    analyzeRepository (.ok (.single en)) ≠ .ok "empty" := by
  have h : analyzeRepository (.ok (.single en)) = .ok (classifySpec [en]) := by
    simp [analyzeRepository, classifyContents_eq_classifySpec]
  have h2 : classifySpec [en] = if matchesReadme en.name then "readme-only" else "populated" := by
    simp [classifySpec]
  refine ⟨h.trans (by rw [h2]), ?_⟩
  rw [h, h2]
  intro hcon
  have hstr := Except.ok.inj hcon
  cases hm : matchesReadme en.name <;> rw [hm] at hstr <;> simp at hstr

/-- Claim C3 (confirmed): a 409 "no content" fetch failure is classified
`empty`; any other fetch failure is re-raised unchanged by `classify`, and a
scan whose first analyzed repository hits such a failure aborts with that
very error. -/
theorem classify_error_policy :
    (∀ msg : String, analyzeRepository (.error { status := 409, message := msg }) = .ok "empty") ∧
    (∀ e : JsError, e.status ≠ 409 → analyzeRepository (.error e) = .error e) ∧
    (∀ (visibility : String) (fetch : String → Except JsError ContentData) (r : Repo)
        (rest : List Repo) (e : JsError), skipRepo visibility r = false →
        fetch r.name = .error e → e.status ≠ 409 →
        scanRepositories visibility fetch (r :: rest) = .error e) := by
  refine ⟨fun msg => rfl, fun e he => by simp [analyzeRepository, he], ?_⟩
  intro v fetch r rest e hskip hf he
  simp [scanRepositories, hskip, analyzeRepository, hf, he]

/-- Witness for C3 at a concrete non-409 (permission) error. -/
theorem classify_error_policy_witness :
    analyzeRepository (.error { status := 403, message := "Forbidden" }) =
      .error { status := 403, message := "Forbidden" } :=
  classify_error_policy.2.1 { status := 403, message := "Forbidden" } (by decide)

/-- A repository that survives the skip conditions is not archived. -/
theorem archived_of_not_skip {visibility : String} {r : Repo}
    (h : skipRepo visibility r = false) : r.archived = false := by
  simp only [skipRepo, Bool.or_eq_false_iff] at h
  exact h.2

/-- Structure of a successful scan: each output sequence is an order-preserving
sublist of the analyzed listing's `full_name`s, and jointly each repository
occurrence contributes at most one output entry. -/
theorem scan_ok_structure (visibility : String) (fetch : String → Except JsError ContentData) :
    ∀ (repos : List Repo) (es rs : List String),
      scanRepositories visibility fetch repos = .ok (es, rs) →
      es.Sublist ((scannedRepos visibility repos).map Repo.full_name) ∧
      rs.Sublist ((scannedRepos visibility repos).map Repo.full_name) ∧
      ∀ x : String, es.count x + rs.count x ≤
        ((scannedRepos visibility repos).map Repo.full_name).count x := by
  intro repos
  induction repos with
  | nil =>
    intro es rs h
    simp only [scanRepositories, Except.ok.injEq, Prod.mk.injEq] at h
    obtain ⟨rfl, rfl⟩ := h
    simp [scannedRepos]
  | cons r rest ih =>
    intro es rs h
    by_cases hskip : skipRepo visibility r = true
    · rw [show scannedRepos visibility (r :: rest) = scannedRepos visibility rest from by
        simp [scannedRepos, hskip]]
      refine ih es rs ?_
      rw [scanRepositories, if_pos hskip] at h
      exact h
    · have hskip' : skipRepo visibility r = false := by simpa using hskip
      have hsc : scannedRepos visibility (r :: rest) = r :: scannedRepos visibility rest := by
        simp [scannedRepos, hskip']
      rw [hsc, List.map_cons]
      rw [scanRepositories, if_neg hskip] at h
      cases hfetch : analyzeRepository (fetch r.name) with
      | error e => rw [hfetch] at h; exact absurd h (by simp)
      | ok st =>
        rw [hfetch] at h
        cases hrest : scanRepositories visibility fetch rest with
        | error e => rw [hrest] at h; exact absurd h (by simp)
        | ok p =>
          obtain ⟨es', rs'⟩ := p
          rw [hrest] at h
          dsimp only at h
          obtain ⟨h1, h2, h3⟩ := ih es' rs' hrest
          by_cases he : (st == "empty") = true
          · rw [if_pos he] at h
            simp only [Except.ok.injEq, Prod.mk.injEq] at h
            obtain ⟨rfl, rfl⟩ := h
            refine ⟨h1.cons₂ _, h2.cons _, fun x => ?_⟩
            have := h3 x
            simp only [List.count_cons]
            by_cases hx : (x == r.full_name) = true <;> simp [hx] <;> omega
          · rw [if_neg he] at h
            by_cases hro : (st == "readme-only") = true
            · rw [if_pos hro] at h
              simp only [Except.ok.injEq, Prod.mk.injEq] at h
              obtain ⟨rfl, rfl⟩ := h
              refine ⟨h1.cons _, h2.cons₂ _, fun x => ?_⟩
              have := h3 x
              simp only [List.count_cons]
              by_cases hx : (x == r.full_name) = true <;> simp [hx] <;> omega
            · rw [if_neg hro] at h
              simp only [Except.ok.injEq, Prod.mk.injEq] at h
              obtain ⟨rfl, rfl⟩ := h
              refine ⟨h1.cons _, h2.cons _, fun x => ?_⟩
              have := h3 x
              simp only [List.count_cons]
              by_cases hx : (x == r.full_name) = true <;> simp [hx] <;> omega

/-- The scan result depends on the fetch function only at non-archived
repositories of the listing. -/
theorem scan_congr_fetch (visibility : String)
    (fetch fetch2 : String → Except JsError ContentData) :
    ∀ repos : List Repo,
      (∀ r ∈ repos, r.archived = false → fetch r.name = fetch2 r.name) →
      scanRepositories visibility fetch repos = scanRepositories visibility fetch2 repos := by
  intro repos
  induction repos with
  | nil => intro _; rfl
  | cons r rest ih =>
    intro hagree
    have hrest := ih fun q hq => hagree q (List.mem_cons_of_mem _ hq)
    by_cases hskip : skipRepo visibility r = true
    · simp [scanRepositories, hskip, hrest]
    · have hskip' : skipRepo visibility r = false := by simpa using hskip
      have hf : fetch r.name = fetch2 r.name :=
        hagree r (List.mem_cons_self _ _) (archived_of_not_skip hskip')
      simp [scanRepositories, hskip', hf, hrest]

/-- Every reported identifier names a non-archived repository of the listing. -/
theorem scan_mem_of_ok (visibility : String) (fetch : String → Except JsError ContentData)
    (repos : List Repo) (es rs : List String)
    (h : scanRepositories visibility fetch repos = .ok (es, rs)) (x : String)
    (hx : x ∈ es ∨ x ∈ rs) : ∃ r ∈ repos, r.full_name = x ∧ r.archived = false := by
  obtain ⟨h1, h2, _⟩ := scan_ok_structure visibility fetch repos es rs h
  have hmem : x ∈ (scannedRepos visibility repos).map Repo.full_name := by
    cases hx with
    | inl hx => exact h1.subset hx
    | inr hx => exact h2.subset hx
  obtain ⟨r, hr, hrx⟩ := List.mem_map.mp hmem
  rw [scannedRepos] at hr
  obtain ⟨hrmem, hrskip⟩ := List.mem_filter.mp hr
  have hskip' : skipRepo visibility r = false := by simpa using hrskip
  exact ⟨r, hrmem, hrx, archived_of_not_skip hskip'⟩

/-- Claim C5 (confirmed): for every listing, filter and fetch, the `empty` and
`readmeOnly` sequences of a successful scan are order-preserving sublists of
the filtered listing, each filtered repository is classified into at most one
output entry, and under distinct identifiers the two sequences are disjoint. -/
theorem scan_order_invariant (visibility : String)
    (fetch : String → Except JsError ContentData) (repos : List Repo)
    (es rs : List String) (h : scanRepositories visibility fetch repos = .ok (es, rs)) :
    es.Sublist ((scannedRepos visibility repos).map Repo.full_name) ∧
    rs.Sublist ((scannedRepos visibility repos).map Repo.full_name) ∧
    (∀ x : String, es.count x + rs.count x ≤
      ((scannedRepos visibility repos).map Repo.full_name).count x) ∧
    (((scannedRepos visibility repos).map Repo.full_name).Nodup → ∀ x ∈ es, x ∉ rs) := by
  obtain ⟨h1, h2, h3⟩ := scan_ok_structure visibility fetch repos es rs h
  refine ⟨h1, h2, h3, fun hnd x hxe hxr => ?_⟩
  have hce : 0 < es.count x := List.count_pos_iff.mpr hxe
  have hcr : 0 < rs.count x := List.count_pos_iff.mpr hxr
  have hle := List.nodup_iff_count_le_one.mp hnd x
  have := h3 x
  omega

/-- Witness for C5 at a concrete two-repository scan. -/
theorem scan_order_invariant_witness :
    (["org/A", "org/B"] : List String).Sublist
      ((scannedRepos "all" [repoA, repoB]).map Repo.full_name) ∧
    ([] : List String).Sublist ((scannedRepos "all" [repoA, repoB]).map Repo.full_name) ∧
    (∀ x : String, (["org/A", "org/B"] : List String).count x + ([] : List String).count x ≤
      ((scannedRepos "all" [repoA, repoB]).map Repo.full_name).count x) ∧
    (((scannedRepos "all" [repoA, repoB]).map Repo.full_name).Nodup →
      ∀ x ∈ (["org/A", "org/B"] : List String), x ∉ ([] : List String)) :=
  scan_order_invariant "all" fetchEmpty [repoA, repoB] ["org/A", "org/B"] [] rfl

/-- Claim C7 (confirmed): every identifier a scan reports belongs to a
non-archived repository, and the scan result never depends on the fetched
contents of archived repositories (they are never fetched). -/
theorem archived_repos_never_scanned (visibility : String)
    (fetch : String → Except JsError ContentData) (repos : List Repo) :
    (∀ es rs : List String, scanRepositories visibility fetch repos = .ok (es, rs) →
      ∀ x : String, x ∈ es ∨ x ∈ rs → ∃ r ∈ repos, r.full_name = x ∧ r.archived = false) ∧
    (∀ fetch2 : String → Except JsError ContentData,
      (∀ r ∈ repos, r.archived = false → fetch r.name = fetch2 r.name) →
      scanRepositories visibility fetch repos = scanRepositories visibility fetch2 repos) :=
  ⟨fun es rs h x hx => scan_mem_of_ok visibility fetch repos es rs h x hx,
   fun fetch2 hag => scan_congr_fetch visibility fetch fetch2 repos hag⟩

/-- Witness for C7: a concrete reported repo is non-archived, and changing the
fetch behaviour of an archived-only listing changes nothing. -/
theorem archived_repos_never_scanned_witness :
    (∃ r ∈ [repoA, repoC], r.full_name = "org/A" ∧ r.archived = false) ∧
    scanRepositories "all" fetchEmpty [repoC] = scanRepositories "all" fetchBoom [repoC] :=
  ⟨(archived_repos_never_scanned "all" fetchEmpty [repoA, repoC]).1 ["org/A"] [] rfl "org/A"
      (Or.inl (List.mem_singleton.mpr rfl)),
   (archived_repos_never_scanned "all" fetchEmpty [repoC]).2 fetchBoom
      (fun r hr ha => absurd ((List.mem_singleton.mp hr) ▸ ha) (by decide))⟩

/-- Claim C6 (confirmed): for non-archived repositories the skip decision under
filter `public` is exactly the `private` flag, under `private` exactly its
negation, and under `all` never skips; on the listing `[public A, private B]`
the scans yield `{A}`, `{B}` and `{A, B}` respectively. -/
theorem visibility_filter_rule :
    (∀ r : Repo, r.archived = false →
      skipRepo "public" r = r.«private» ∧
      skipRepo "private" r = !r.«private» ∧
      skipRepo "all" r = false) ∧
    scanRepositories "public" fetchEmpty [repoA, repoB] = .ok (["org/A"], []) ∧
    scanRepositories "private" fetchEmpty [repoA, repoB] = .ok (["org/B"], []) ∧
    scanRepositories "all" fetchEmpty [repoA, repoB] = .ok (["org/A", "org/B"], []) := by
  refine ⟨fun r ha => ?_, rfl, rfl, rfl⟩
  simp [skipRepo, ha]

/-- Witness for C6 at the concrete public repository `A`. -/
theorem visibility_filter_rule_witness :
    skipRepo "public" repoA = repoA.«private» ∧
    skipRepo "private" repoA = !repoA.«private» ∧
    skipRepo "all" repoA = false :=
  visibility_filter_rule.1 repoA rfl

/-- Claim C9 (confirmed): any visibility value other than `public` and
`private` disables visibility skipping entirely, so the scan behaves exactly
as with filter `all` — no error is raised. -/
theorem unknown_visibility_scans_all (visibility : String)
    (h1 : visibility ≠ "public") (h2 : visibility ≠ "private")
    (fetch : String → Except JsError ContentData) (repos : List Repo) :
    scanRepositories visibility fetch repos = scanRepositories "all" fetch repos := by
  have hskip : ∀ r : Repo, skipRepo visibility r = skipRepo "all" r := by
    intro r
    simp [skipRepo, beq_eq_false_iff_ne.mpr h1, beq_eq_false_iff_ne.mpr h2]
  induction repos with
  | nil => rfl
  | cons r rest ih =>
    rw [scanRepositories, scanRepositories, hskip r, ih]

/-- Witness for C9 at the undocumented value `internal`. -/
theorem unknown_visibility_scans_all_witness :
    scanRepositories "internal" fetchEmpty [repoA, repoB] =
      scanRepositories "all" fetchEmpty [repoA, repoB] :=
  unknown_visibility_scans_all "internal" (by decide) (by decide) fetchEmpty [repoA, repoB]

/-- The empty needle occurs in every haystack. -/
theorem occursIn_nil (l : List Char) : occursIn [] l = true := by
  cases l <;> simp [occursIn, leadsWith]

/-- A list is a prefix of itself followed by anything. -/
theorem leadsWith_append (s t : List Char) : leadsWith s (s ++ t) = true := by
  induction s with
  | nil => rfl
  | cons a as ih => simp [leadsWith, ih]

/-- A list occurs at the front of itself followed by anything. -/
theorem occursIn_self_append (s t : List Char) : occursIn s (s ++ t) = true := by
  cases s with
  | nil => simpa using occursIn_nil t
  | cons c cs => simp [occursIn, leadsWith, leadsWith_append]

/-- Occurrence is preserved by prepending. -/
theorem occursIn_append_left (p s l : List Char) (h : occursIn s l = true) :
    occursIn s (p ++ l) = true := by
  induction p with
  | nil => simpa using h
  | cons a as ih => simp [occursIn, ih]

/-- String append maps to list append of the character lists. -/
theorem toList_app (s t : String) : (s ++ t).toList = s.toList ++ t.toList := by
  simp

/-- A string occurs in any string built around it. -/
theorem containsStr_middle (p s t : String) : containsStr (p ++ s ++ t) s = true := by
  have h : (p ++ s ++ t).toList = p.toList ++ (s.toList ++ t.toList) := by
    simp [toList_app]
  rw [containsStr, h]
  exact occursIn_append_left _ _ _ (occursIn_self_append _ _)

/-- The issue title contains the organization name and the date. -/
theorem title_contains (org today : String) :
    containsStr ("Monthly Repo Health: " ++ org ++ " (" ++ today ++ ")") org = true ∧
    containsStr ("Monthly Repo Health: " ++ org ++ " (" ++ today ++ ")") today = true := by
  constructor
  · have heq : "Monthly Repo Health: " ++ org ++ " (" ++ today ++ ")" =
        "Monthly Repo Health: " ++ org ++ (" (" ++ today ++ ")") := by
      simp [String.append_assoc]
    rw [heq]
    exact containsStr_middle "Monthly Repo Health: " org (" (" ++ today ++ ")")
  · exact containsStr_middle ("Monthly Repo Health: " ++ org ++ " (") today ")"

/-- Claim C4 (confirmed): `run` creates an issue iff the scan succeeds with at
least one result — a failed scan propagates the error with no issue, empty
results return `issueCreated: false` with no issue, and non-empty results
create exactly one issue whose title contains the organization and the date. -/
theorem run_issue_policy (ctx : Context) (today org visibility : String)
    (fetch : String → Except JsError ContentData) (repos : List Repo) :
    (∀ e : JsError, scanRepositories visibility fetch repos = .error e →
      run ctx today org visibility fetch repos = .error e) ∧
    (scanRepositories visibility fetch repos = .ok ([], []) →
      run ctx today org visibility fetch repos =
        .ok { issues := [], issueCreated := false, empty := [], readmeOnly := [] }) ∧
    (∀ es rs : List String, scanRepositories visibility fetch repos = .ok (es, rs) →
      es ++ rs ≠ [] →
      ∃ result : RunResult, run ctx today org visibility fetch repos = .ok result ∧
        result.issueCreated = true ∧
        result.issues = [createReportIssue ctx today org visibility es rs] ∧
        ∀ i ∈ result.issues,
          containsStr i.title org = true ∧ containsStr i.title today = true) := by
  refine ⟨fun e he => ?_, fun h0 => ?_, fun es rs hok hne => ?_⟩
  · unfold run
    rw [he]
  · unfold run
    rw [h0]
    rfl
  · have hlen : ¬ es.length + rs.length = 0 := by
      intro hz
      apply hne
      have hz2 : (es ++ rs).length = 0 := by simp [hz]
      exact List.length_eq_zero.mp hz2
    refine ⟨{ issues := [createReportIssue ctx today org visibility es rs],
              issueCreated := true, empty := es, readmeOnly := rs }, ?_, rfl, rfl, ?_⟩
    · unfold run
      rw [hok]
      dsimp only
      rw [if_neg hlen]
    · intro i hi
      rw [List.mem_singleton] at hi
      subst hi
      simp only [createReportIssue]
      exact ⟨(title_contains org today).1, (title_contains org today).2⟩

/-- Witness for C4 at a concrete one-repository scan that files an issue. -/
theorem run_issue_policy_witness :
    ∃ result : RunResult, run mockContext "2026-10-11" "test-org" "all" fetchEmpty [repoA] =
      .ok result ∧ result.issueCreated = true ∧
      result.issues = [createReportIssue mockContext "2026-10-11" "test-org" "all" ["org/A"] []] ∧
      ∀ i ∈ result.issues,
        containsStr i.title "test-org" = true ∧ containsStr i.title "2026-10-11" = true :=
  (run_issue_policy mockContext "2026-10-11" "test-org" "all" fetchEmpty [repoA]).2.2
    ["org/A"] [] rfl (by decide)

/-- The empty-row loop of the report equals the spec's row block. -/
theorem foldl_rows_empty (l : List String) (b : String) :
    l.foldl (fun acc repo => acc ++ "| " ++ repo ++ " | empty |\n") b =
      b ++ reportRowsSpec "empty" l := by
  induction l generalizing b with
  | nil => simp [reportRowsSpec]
  | cons r rest ih =>
    rw [List.foldl_cons, ih, reportRowsSpec]
    simp only [String.append_assoc]
    rfl

/-- The README-only-row loop of the report equals the spec's row block. -/
theorem foldl_rows_readme (l : List String) (b : String) :
    l.foldl (fun acc repo => acc ++ "| " ++ repo ++ " | README-only |\n") b =
      b ++ reportRowsSpec "README-only" l := by
  induction l generalizing b with
  | nil => simp [reportRowsSpec]
  | cons r rest ih =>
    rw [List.foldl_cons, ih, reportRowsSpec]
    simp only [String.append_assoc]
    rfl

/-- Claim C8 (confirmed): the generated report body equals the spec layout —
heading with organization and date, visibility line, table header, all empty
rows in order then all README-only rows in order, trailing monthly note — and
the concrete test instance contains the four required literal substrings. -/
theorem report_layout :
    (∀ (today org visibility : String) (emptyL readmeOnlyL : List String),
      generateReportBody today org visibility emptyL readmeOnlyL =
        reportSpec today org visibility emptyL readmeOnlyL) ∧
    containsStr (generateReportBody "2026-10-11" "test-org" "all" ["org/empty"] ["org/readme"])
      "Empty Repo Report for `test-org`" = true ∧
    containsStr (generateReportBody "2026-10-11" "test-org" "all" ["org/empty"] ["org/readme"])
      "**Visibility:** all" = true ∧
    containsStr (generateReportBody "2026-10-11" "test-org" "all" ["org/empty"] ["org/readme"])
      "| org/empty | empty |" = true ∧
    containsStr (generateReportBody "2026-10-11" "test-org" "all" ["org/empty"] ["org/readme"])
      "| org/readme | README-only |" = true := by
  refine ⟨fun today org visibility emptyL readmeOnlyL => ?_, by decide, by decide, by decide,
    by decide⟩
  unfold generateReportBody reportSpec
  dsimp only
  rw [foldl_rows_empty, foldl_rows_readme]
  simp only [String.append_assoc]

end EmptyRepos
